import Mathlib

/-!
Verification of the crawl engine in `get_games.py` (class `GetGames`).

The Python source is shallowly embedded:

* Python strings are Lean `String`s; `s.split('/')` is `pySplit` (keeping
  empty pieces and returning a single piece for the empty input, exactly as
  Python does for an explicit separator), `'/'.join xs` is `pyJoin "/"`,
  and `xs[-5:]` is `List.drop (length - 5)`.
* Network and parsing collaborators (`requests.Session.get`,
  `BeautifulSoup`) are oracle parameters: a fallible `fetch` function and
  pure `extract` / `normalize` functions. One collaborator behavior is
  fixed rather than abstract: lines 181 and 183 hand the raw `Response`
  object (not its `.text`, unlike line 159) to `BeautifulSoup`, which
  raises `TypeError` — `bs4_on_response` models that.
* The local filesystem is a predicate `String → Bool` (`os.path.exists`);
  side effects of a worker are reified as an `Eff` trace.
* The mutable `self.year` / `self.month` attributes (initialized to
  `None`) are `Option String` fields of `GGState`; Python truthiness of
  such a value is `pyFalsyOpt`.
* `multiprocessing.Queue` consumed by several worker processes is a
  small-step system: a FIFO list of `Option String` items plus a list of
  worker states, with an interleaving step relation `QStep`. A worker's
  loop body has no exception handler, so an uncaught error while
  processing a popped task kills the worker without it consuming a
  sentinel; `QStep` carries that failure transition, driven by a `crashes`
  oracle saying on which task URLs the body raises.
-/

namespace GetGames

/-- Python truthiness test `not game_url` for a queue item that is either
`None` (the sentinel) or a string: falsy iff `None` or the empty string. -/
def pyFalsy : Option String → Bool
  | none => true
  | some s => s == ""

/-- Python truthiness test `not self.month` for an attribute initialized to
`None` and later holding a string. -/
def pyFalsyOpt : Option String → Bool
  | none => true
  | some s => s == ""

/-- Helper for `pySplit`: walk the characters, cutting at each separator;
`acc` holds the current piece reversed. -/
def pySplitAux (sep : Char) : List Char → List Char → List String
  | [], acc => [String.mk acc.reverse]
  | c :: cs, acc =>
      if c = sep then String.mk acc.reverse :: pySplitAux sep cs []
      else pySplitAux sep cs (c :: acc)

/-- Python `s.split(sep)` for a one-character separator: splits at every
occurrence, keeping empty pieces; `''.split(sep) = ['']`. -/
def pySplit (s : String) (sep : Char) : List String :=
  pySplitAux sep s.data []

/-- Python `sep.join(xs)`. -/
def pyJoin (sep : String) : List String → String
  | [] => ""
  | [x] => x
  | x :: xs => x ++ sep ++ pyJoin sep xs

/-- Python `xs[-5:]`: the last five elements (all of them when fewer). -/
def lastFive (xs : List String) : List String :=
  xs.drop (xs.length - 5)

/-- `'/'.join(game_url.split('/')[-5:])` — the persistence directory derived
from a game base URL (lines 163 and 184 of `get_games.py`). -/
def gameDirectory (game_url : String) : String :=
  pyJoin "/" (lastFive (pySplit game_url '/'))

/-- Transport / runtime errors surfaced by collaborators. -/
inductive Err
  | transport (msg : String)
  | typeError (msg : String)
  | valueError (msg : String)
  deriving DecidableEq, Repr

/-- Reified side effects of the crawler. -/
inductive Eff
  | fetch (url : String)
  | mkdir (path : String) (exist_ok : Bool)
  | write (path : String) (content : String)
  | renew
  deriving DecidableEq, Repr

/-- `renew_connection` (lines 57–62): signals the Tor control port for a new
circuit. Its sole effect is the identity rotation. -/
def renew_connection : List Eff := [Eff.renew]

/-- The mutable attributes of a `GetGames` object that the discovery path
reads: `self.year`, `self.month` (both `None` after `__init__`) and
`self.home`. -/
structure GGState where
  year : Option String
  month : Option String
  home : String
  deriving DecidableEq, Repr

/-- The state of a freshly initialized `GetGames` object (`__init__`,
lines 30–39). -/
def initState : GGState :=
  { year := none, month := none
    home := "http://gd2.mlb.com/components/game/mlb/" }

/-- Lines 150–157 of `get_day`: split the date argument, initialize
`self.year` / `self.month` from it when `self.month` is falsy, and build the
day listing URL `home + 'year_{}/month_{}/day_{}/'.format(self.year,
self.month, day)`. Returns the updated state and the URL. -/
def dayListingURL (st : GGState) (date : String) : GGState × String :=
  let parts := pySplit date '-'
  let st' :=
    if pyFalsyOpt st.month then
      { st with year := some (parts.getD 0 ""), month := some (parts.getD 1 "") }
    else st
  let day := parts.getD 2 ""
  (st', st'.home ++ "year_" ++ (st'.year.getD "None") ++ "/month_" ++
    (st'.month.getD "None") ++ "/day_" ++ day ++ "/")

/-- Lines 162–165 of `get_day`: enqueue each discovered game URL unless
`os.path.exists('/'.join(game.split('/')[-5:]))` holds; `ex` is the
filesystem-existence oracle. -/
def enqueueGames (ex : String → Bool) (games : List String) : List String :=
  games.filter fun game => !(ex (gameDirectory game))

/-- `get_day(date, session_num)` (lines 137–165). Collaborators: `fetch`
models `session.get` (fallible), `extract` models the BeautifulSoup
`find_all('a', text=re.compile('gid\\w*/'))` href extraction from the page
text, `ex` models `os.path.exists`. Returns the updated object state, the
game URLs put on the task queue, and the trace of effects performed. -/
def get_day (fetch : String → Except Err String) (extract : String → List String)
    (ex : String → Bool) (st : GGState) (date : String) :
    Except Err (GGState × List String × List Eff) :=
  let su := dayListingURL st date
  match fetch su.2 with
  | .error e => .error e
  | .ok html =>
      let games := (extract html).map fun href => su.2 ++ href
      .ok (su.1, enqueueGames ex games, [Eff.fetch su.2])

/-- Gregorian leap-year rule, the behavior of the external
`calendar.isleap`. -/
def isleap (y : Nat) : Bool :=
  (y % 4 == 0 && y % 100 != 0) || y % 400 == 0

/-- Number of days in a month: the behavior of the external
`calendar.monthrange(y, m)[1]`. -/
def monthDays (y m : Nat) : Nat :=
  if m == 2 then (if isleap y then 29 else 28)
  else if m == 4 || m == 6 || m == 9 || m == 11 then 30
  else 31

/-- Python `format(day, '02d')` for the day numbers used here. -/
def pad2 (n : Nat) : String :=
  if n < 10 then "0" ++ toString n else toString n

/-- Helper for `pyInt`: fold decimal digits, `none` on a non-digit. -/
def pyIntAux : List Char → Nat → Option Nat
  | [], acc => some acc
  | c :: cs, acc =>
      if '0' ≤ c && c ≤ '9' then pyIntAux cs (acc * 10 + (c.toNat - 48))
      else none

/-- Python `int(s)` on a nonnegative decimal string, `ValueError`
otherwise. -/
def pyInt (s : String) : Except Err Nat :=
  match s.data with
  | [] => .error (Err.valueError s)
  | ds =>
      match pyIntAux ds 0 with
      | some n => .ok n
      | none => .error (Err.valueError s)

/-- `get_month(month)` (lines 108–135) up to the thread launches: split the
argument on `'-'`, initialize `self.year` / `self.month` from it when
`self.year` is falsy, compute the day count from
`calendar.monthrange(int(self.year), int(self.month))`, and build the list
of date strings `'-'.join(date) + '-' + day` handed to `get_day`. Returns
the updated state and those date strings. -/
def get_month (st : GGState) (month : String) : Except Err (GGState × List String) :=
  let date := pySplit month '-'
  let st' :=
    if pyFalsyOpt st.year then
      { st with year := some (date.getD 0 ""), month := some (date.getD 1 "") }
    else st
  match pyInt (st'.year.getD "None"), pyInt (st'.month.getD "None") with
  | .ok y, .ok m =>
      let days := (List.range' 1 (monthDays y m)).map pad2
      .ok (st', days.map fun day => pyJoin "-" date ++ "-" ++ day)
  | .error e, _ => .error e
  | _, .error e => .error e

/-- The listing URLs that the `get_day` threads launched by `get_month`
build: `get_month` followed, for each produced date string, by the URL
construction of `get_day` against the state `get_month` left behind. -/
def get_month_day_urls (st : GGState) (month : String) : Except Err (List String) :=
  match get_month st month with
  | .error e => .error e
  | .ok (st', dates) => .ok (dates.map fun d => (dayListingURL st' d).2)

/-- Behavior of the external `BeautifulSoup(markup, 'lxml')` constructor
when handed a raw `requests.Response` object, which is what lines 181 and
183 pass (the response itself, not its `.text` — contrast line 159): a
`Response` has neither a `read` method nor `__len__`, so the constructor
raises `TypeError` before any parsing, whatever the response content. -/
def bs4_on_response (_r : String) : Except Err String :=
  .error (Err.typeError "object of type 'Response' has no len()")

/-- The body of `_get_game` for one non-sentinel game URL (lines 179–189):
fetch `players.xml`, hand the raw response to `BeautifulSoup` (line 181 —
which raises `TypeError`), then fetch `inning/inning_all.xml`, parse it the
same way (line 183), create the derived directory with `exist_ok=True`,
and write both prettified documents (`normalize`) under it. The code from
the second fetch on is dead: `bs4_on_response` errors first. Returns the
effect trace of a (never reached) successful run. -/
def processGame (fetch : String → Except Err String) (normalize : String → String)
    (game_url : String) : Except Err (List Eff) :=
  match fetch (game_url ++ "players.xml") with
  | .error e => .error e
  | .ok players_response =>
      match bs4_on_response players_response with
      | .error e => .error e
      | .ok players =>
          match fetch (game_url ++ "inning/inning_all.xml") with
          | .error e => .error e
          | .ok innings_response =>
              match bs4_on_response innings_response with
              | .error e => .error e
              | .ok innings =>
                  let directory := gameDirectory game_url
                  .ok [Eff.fetch (game_url ++ "players.xml"),
                       Eff.fetch (game_url ++ "inning/inning_all.xml"),
                       Eff.mkdir directory true,
                       Eff.write (directory ++ "/players.xml") (normalize players),
                       Eff.write (directory ++ "/inning_all.xml") (normalize innings)]

/-- The `while True` loop of `_get_game` (lines 175–189) run by a single
worker against the finite list of items it will pop from the queue: pop an
item, break when it is falsy (`if not game_url`), otherwise process the
game. Returns the effect trace and the list of game URLs processed. -/
def runWorker (fetch : String → Except Err String) (normalize : String → String) :
    List (Option String) → Except Err (List Eff × List String)
  | [] => .ok ([], [])
  | item :: rest =>
      if pyFalsy item then .ok ([], [])
      else
        let url := item.getD ""
        match processGame fetch normalize url with
        | .error e => .error e
        | .ok effs =>
            match runWorker fetch normalize rest with
            | .error e => .error e
            | .ok (effs', urls) => .ok (effs ++ effs', url :: urls)

/-- How a worker process has ended, if it has: `finished` means it popped a
falsy item and hit `break`; `crashed` means an uncaught exception escaped
the loop body while it was processing a popped task (the loop has no
handler, so the exception kills the process without it consuming a
sentinel). -/
inductive WStatus
  | running
  | finished
  | crashed
  deriving DecidableEq, Repr

/-- One worker process of the fetch pool: its status and the game URLs
whose processing it has completed, in order. -/
structure WkSt where
  status : WStatus
  processed : List String
  deriving DecidableEq, Repr

/-- The shared system: the `multiprocessing.Queue` contents (front first)
and the pool of workers. -/
structure WSys where
  queue : List (Option String)
  workers : List WkSt
  deriving DecidableEq, Repr

/-- What one iteration of the `_get_game` loop does to the worker that
popped item `x`: `break` on a falsy item; otherwise run the body, which
either raises (killing the worker) or completes the game. The `crashes`
oracle says on which task URLs the body raises — per
`no_persistence_effects` below, the body as written raises on every one. -/
def stepWorker (crashes : String → Bool) (w : WkSt) (x : Option String) : WkSt :=
  if pyFalsy x then { w with status := WStatus.finished }
  else if crashes (x.getD "") then { w with status := WStatus.crashed }
  else { w with processed := w.processed ++ [x.getD ""] }

/-- Interleaving small-step relation: some still-running worker (singled
out by splitting the pool around it) pops the head of the FIFO queue and
runs one loop iteration on it. -/
inductive QStep (crashes : String → Bool) (s t : WSys) : Prop
  | mk (ws₁ ws₂ : List WkSt) (w : WkSt) (x : Option String)
      (rest : List (Option String))
      (hq : s.queue = x :: rest)
      (hw : s.workers = ws₁ ++ w :: ws₂)
      (hrun : w.status = WStatus.running)
      (ht : t = ⟨rest, ws₁ ++ stepWorker crashes w x :: ws₂⟩)

/-- Executions: reflexive-transitive closure of `QStep`. -/
def QReach (crashes : String → Bool) : WSys → WSys → Prop :=
  Relation.ReflTransGen (QStep crashes)

/-- No step is possible: the pool is blocked (empty queue) or no worker is
still running. -/
def QStuck (crashes : String → Bool) (s : WSys) : Prop :=
  ¬ ∃ t, QStep crashes s t

/-- Lines 211–217 of `_get_games`: push one `None` sentinel per worker
(`cpu_count()` of them) onto the task queue, then spawn `cpu_count()`
worker processes running `_get_game`. Returns the resulting queue contents
and the initial worker pool. -/
def get_games_start (cpu : Nat) (pending : List String) : WSys :=
  { queue := pending.map some ++ List.replicate cpu none
    workers := List.replicate cpu ⟨WStatus.running, []⟩ }

/-- Number of workers that terminated cleanly by popping a sentinel. -/
def countFinished : List WkSt → Nat
  | [] => 0
  | w :: ws => (if w.status = WStatus.finished then 1 else 0) + countFinished ws

/-- Number of workers killed by an uncaught exception. -/
def countCrashed : List WkSt → Nat
  | [] => 0
  | w :: ws => (if w.status = WStatus.crashed then 1 else 0) + countCrashed ws

/-- Number of workers still in their loop. -/
def countRunning : List WkSt → Nat
  | [] => 0
  | w :: ws => (if w.status = WStatus.running then 1 else 0) + countRunning ws

/-- Concatenation of all workers' completed game URLs. -/
def allProcessed : List WkSt → List String
  | [] => []
  | w :: ws => w.processed ++ allProcessed ws

/-- Step invariant of the fetch pool: the queue is a suffix of the initial
FIFO contents (`p` items popped so far); clean terminations equal the
sentinels popped (`p - tasks.length`, as the `W` sentinels sit behind the
`tasks`); and each popped task was either completed by some worker or
consumed by one crash — so the completed URLs plus one `dropped` URL per
crash are, up to interleaving, exactly the first `p` popped items' tasks. -/
def WInv (tasks : List String) (W : Nat) (s : WSys) : Prop :=
  s.workers.length = W ∧
  ∃ p, p ≤ tasks.length + W ∧
    s.queue = (tasks.map some ++ List.replicate W none).drop p ∧
    countFinished s.workers = p - tasks.length ∧
    ∃ dropped : List String,
      dropped.length = countCrashed s.workers ∧
      List.Perm (allProcessed s.workers ++ dropped) (tasks.take p)

/-- One phase of the orchestrator's year loop. -/
inductive Phase
  | discover (year : Nat)
  | fetchPool (year : Nat)
  deriving DecidableEq, Repr

/-- Behavior of the external CPython builtin `time.strftime`: it is a
`METH_VARARGS` builtin, so any keyword argument raises
`TypeError: strftime() takes no keyword arguments` before the format or
time argument is looked at. `kwargs` lists the keyword argument names
passed at the call site; `now_year` is the wall-clock year it would
format for `'%Y'`. -/
def time_strftime (fmt : String) (kwargs : List String) (now_year : Nat) :
    Except Err String :=
  if !kwargs.isEmpty then
    .error (Err.typeError "strftime() takes no keyword arguments")
  else if fmt == "%Y" then .ok (toString now_year)
  else .ok ""

/-- The `for year in range(2007, curr_year + 1)` loop body of
`get_all_years` (lines 226–228): for each year, `get_year` (all discovery
for that year) then `_get_games` (the fetch pool, run to completion). -/
def year_loop (curr_year : Nat) : List Phase :=
  (List.range' 2007 (curr_year + 1 - 2007)).flatMap fun y =>
    [Phase.discover y, Phase.fetchPool y]

/-- `get_all_years` (lines 223–228): obtain the current year via
`time.strftime('%Y', tuple=None)` — note the keyword argument — then run
the year loop. -/
def get_all_years (now_year : Nat) : Except Err (List Phase) :=
  match time_strftime "%Y" ["tuple"] now_year with
  | .error e => .error e
  | .ok y =>
      match pyInt y with
      | .error e => .error e
      | .ok curr_year => .ok (year_loop curr_year)

/-! ## Theorems -/

/-- C1. Dedup before enqueue: for every game base URL discovered by
`get_day`, the URL is put on the task queue exactly when the derived
persistence directory (the last five path segments joined by `'/'`) does
not exist; a game whose directory exists is skipped. -/
theorem dedup_before_enqueue (fetch : String → Except Err String)
    (extract : String → List String) (ex : String → Bool) (st : GGState)
    (date html : String) (hf : fetch (dayListingURL st date).2 = .ok html) :
    get_day fetch extract ex st date =
      .ok ((dayListingURL st date).1,
        enqueueGames ex
          ((extract html).map fun href => (dayListingURL st date).2 ++ href),
        [Eff.fetch (dayListingURL st date).2]) ∧
    ∀ (games : List String) (g : String),
      g ∈ enqueueGames ex games ↔ g ∈ games ∧ ex (gameDirectory g) = false := by
  constructor
  · simp only [get_day]
    rw [hf]
  · intro games g
    simp [enqueueGames, List.mem_filter]

/-- Witness for C1 at a concrete page with one discovered game, an empty
filesystem. -/
theorem dedup_before_enqueue_witness :
    get_day (fun _ => .ok "page") (fun _ => ["gid_2016_06_01_aaamlb_bbbmlb_1/"])
        (fun _ => false) initState "2016-06-01" =
      .ok ((dayListingURL initState "2016-06-01").1,
        enqueueGames (fun _ => false)
          ((["gid_2016_06_01_aaamlb_bbbmlb_1/"]).map fun href =>
            (dayListingURL initState "2016-06-01").2 ++ href),
        [Eff.fetch (dayListingURL initState "2016-06-01").2]) ∧
    ∀ (games : List String) (g : String),
      g ∈ enqueueGames (fun _ => false) games ↔
        g ∈ games ∧ (fun _ => false) (gameDirectory g) = false :=
  dedup_before_enqueue (fun _ => .ok "page")
    (fun _ => ["gid_2016_06_01_aaamlb_bbbmlb_1/"]) (fun _ => false) initState
    "2016-06-01" "page" rfl

/-- C3 counterexample: the derived persistence path for the documented base
URL is not the five-segment string without a trailing slash — the URL's own
trailing `'/'` makes the last split piece empty, so the join ends in `'/'`. -/
theorem path_derivation_counterexample :
    gameDirectory "http://gd2.mlb.com/components/game/mlb/year_2016/month_06/day_01/gid_2016_06_01_nyamlb_bosmlb_1/" ≠
      "year_2016/month_06/day_01/gid_2016_06_01_nyamlb_bosmlb_1" := by
  decide

/-- C3 amended: the derived persistence path for that base URL is the same
string with a trailing slash. -/
theorem path_derivation_trailing_slash :
    gameDirectory "http://gd2.mlb.com/components/game/mlb/year_2016/month_06/day_01/gid_2016_06_01_nyamlb_bosmlb_1/" =
      "year_2016/month_06/day_01/gid_2016_06_01_nyamlb_bosmlb_1/" := by
  decide

/-- C4. Month enumeration: `get_month("2016-02")` on a freshly initialized
object enumerates exactly 29 day tasks (2016 is a leap year), and the
listing URL each launched `get_day` constructs is
`home + "year_2016/month_02/day_DD/"` for `DD` over `"01"`..`"29"`. -/
theorem month_enumeration_2016_02 :
    (∃ st dates, get_month initState "2016-02" = Except.ok (st, dates) ∧
      dates.length = 29) ∧
    get_month_day_urls initState "2016-02" =
      Except.ok ((List.range' 1 29).map fun d =>
        initState.home ++ "year_2016/month_02/day_" ++ pad2 d ++ "/") ∧
    (List.range' 1 29).map pad2 =
      ["01", "02", "03", "04", "05", "06", "07", "08", "09", "10", "11",
       "12", "13", "14", "15", "16", "17", "18", "19", "20", "21", "22",
       "23", "24", "25", "26", "27", "28", "29"] := by
  refine ⟨⟨_, _, rfl, ?_⟩, ?_, ?_⟩
  · decide
  · rfl
  · decide

/-- C7. `get_all_years` never reaches its year loop: the call
`time.strftime('%Y', tuple=None)` on line 225 passes a keyword argument to
a builtin that accepts none, so every invocation raises `TypeError` before
any year is processed. -/
theorem get_all_years_strftime_type_error :
    ∀ now_year : Nat,
      get_all_years now_year =
        .error (Err.typeError "strftime() takes no keyword arguments") :=
  fun _ => rfl

/-- C5. The claimed worker persistence postcondition is unreachable: line
181 hands the raw `players.xml` response object — not its text — to
`BeautifulSoup`, which raises `TypeError`. So whenever the `players.xml`
fetch succeeds, the worker body errors out with that `TypeError` before
the `inning/inning_all.xml` fetch, the `makedirs`, and both writes — for
every fetch oracle, i.e. whatever the second fetch would have returned. -/
theorem worker_body_type_error (fetch : String → Except Err String)
    (normalize : String → String) (url P : String)
    (hP : fetch (url ++ "players.xml") = .ok P) :
    processGame fetch normalize url =
      .error (Err.typeError "object of type 'Response' has no len()") := by
  simp [processGame, hP, bs4_on_response]

/-- Witness for C5: a concrete fetch oracle on the documented base URL. -/
theorem worker_body_type_error_witness :
    processGame (fun s => Except.ok s) (fun s => s)
        "http://gd2.mlb.com/components/game/mlb/year_2016/month_06/day_01/gid_2016_06_01_nyamlb_bosmlb_1/" =
      .error (Err.typeError "object of type 'Response' has no len()") :=
  worker_body_type_error (fun s => Except.ok s) (fun s => s)
    "http://gd2.mlb.com/components/game/mlb/year_2016/month_06/day_01/gid_2016_06_01_nyamlb_bosmlb_1/"
    _ rfl

/-- C6 counterexample: after a first call has set the stored year and month
(here via `get_day("2016-06-01")` on a fresh object), a later `get_day`
call builds its listing URL from that stored state, not from the year and
month of its own date argument. -/
theorem discovery_url_counterexample :
    (dayListingURL ((dayListingURL initState "2016-06-01").1) "2017-07-02").2 =
      "http://gd2.mlb.com/components/game/mlb/year_2016/month_06/day_02/" ∧
    (dayListingURL ((dayListingURL initState "2016-06-01").1) "2017-07-02").2 ≠
      initState.home ++ "year_2017/month_07/day_02/" := by
  constructor <;> decide

/-- C6 amended: `get_day` builds the listing URL from the stored
`self.year` / `self.month` (initialized from the date argument when
`self.month` is falsy) together with the day piece of the date argument —
so the URL is the claimed `home + year_Y/month_M/day_D/` of the argument
exactly when the stored month is unset or the stored year and month match
the argument — and resolves every matching anchor by prefixing that day
URL. -/
theorem discovery_url_state (st : GGState) (y m d date : String)
    (hsplit : pySplit date '-' = [y, m, d])
    (hstate : pyFalsyOpt st.month = true ∨ (st.year = some y ∧ st.month = some m)) :
    (dayListingURL st date).2 =
      st.home ++ "year_" ++ y ++ "/month_" ++ m ++ "/day_" ++ d ++ "/" ∧
    ∀ (fetch : String → Except Err String) (extract : String → List String)
      (ex : String → Bool) (html : String),
      fetch (dayListingURL st date).2 = .ok html →
      get_day fetch extract ex st date =
        .ok ((dayListingURL st date).1,
          enqueueGames ex
            ((extract html).map fun href => (dayListingURL st date).2 ++ href),
          [Eff.fetch (dayListingURL st date).2]) := by
  constructor
  · simp only [dayListingURL]
    rw [hsplit]
    by_cases hx : pyFalsyOpt st.month = true
    · simp [hx]
    · rcases hstate with h | ⟨hy, hm⟩
      · exact absurd h hx
      · rw [if_neg hx]
        simp [hy, hm]
  · intro fetch extract ex html hf
    simp only [get_day]
    rw [hf]

/-- Witness for C6 amended, on a fresh object where the stored month is
unset. -/
theorem discovery_url_state_witness :
    (dayListingURL initState "2016-06-01").2 =
      initState.home ++ "year_" ++ "2016" ++ "/month_" ++ "06" ++ "/day_" ++
        "01" ++ "/" :=
  (discovery_url_state initState "2016" "06" "01" "2016-06-01" (by decide)
    (Or.inl rfl)).1

/-- C8. No automatic retry or rotation: a transport error from the session
fetch in `get_day` or in the worker body propagates to the caller as-is
(no handler retries), and the successful traces of both never contain the
identity-rotation effect — `renew_connection`, whose sole effect is the
rotation, is invoked from no fetch path. -/
theorem no_retry_no_rotation (fetch : String → Except Err String)
    (extract : String → List String) (ex : String → Bool) (st : GGState)
    (date : String) (normalize : String → String) (url : String)
    (q : List (Option String)) (e : Err) :
    (fetch (dayListingURL st date).2 = .error e →
      get_day fetch extract ex st date = .error e) ∧
    (fetch (url ++ "players.xml") = .error e →
      processGame fetch normalize url = .error e) ∧
    (pyFalsy (some url) = false →
      processGame fetch normalize url = .error e →
      runWorker fetch normalize (some url :: q) = .error e) ∧
    (∀ (st' : GGState) (games : List String) (effs : List Eff),
      get_day fetch extract ex st date = .ok (st', games, effs) →
      Eff.renew ∉ effs) ∧
    (∀ effs : List Eff, processGame fetch normalize url = .ok effs →
      Eff.renew ∉ effs) ∧
    renew_connection = [Eff.renew] := by
  refine ⟨?_, ?_, ?_, ?_, ?_, rfl⟩
  · intro hf; simp only [get_day]; rw [hf]
  · intro hf; simp [processGame, hf]
  · intro hfalsy hpe; simp [runWorker, hfalsy, hpe]
  · intro st' games effs hok
    cases h : fetch (dayListingURL st date).2 with
    | error e' => simp only [get_day] at hok; rw [h] at hok; cases hok
    | ok html =>
        simp only [get_day] at hok; rw [h] at hok
        cases hok
        simp
  · intro effs hok
    cases hp : fetch (url ++ "players.xml") with
    | error e' => simp [processGame, hp] at hok
    | ok P => simp [processGame, hp, bs4_on_response] at hok

/-- Witness for C8: a concrete timed-out fetch propagates out of
`get_day`. -/
theorem no_retry_no_rotation_witness :
    get_day (fun _ => Except.error (Err.transport "timeout")) (fun _ => [])
        (fun _ => false) initState "2016-06-01" =
      .error (Err.transport "timeout") :=
  (no_retry_no_rotation (fun _ => Except.error (Err.transport "timeout"))
    (fun _ => []) (fun _ => false) initState "2016-06-01" (fun s => s) "" []
    (Err.transport "timeout")).1 rfl

/-- C9. Unreachable non-atomic persistence: the worker body never reaches
the `makedirs` on line 185 (or either write) at all — for every fetch
oracle and every game URL it returns an error, either the fetch's
transport error or the `TypeError` from handing the raw response to
`BeautifulSoup` on line 181. So no effect trace is ever produced, and the
claimed created-directory-before-writes hazard window never occurs. -/
theorem no_persistence_effects (fetch : String → Except Err String)
    (normalize : String → String) (url : String) :
    ∃ e : Err, processGame fetch normalize url = .error e := by
  cases hp : fetch (url ++ "players.xml") with
  | error e => exact ⟨e, by simp [processGame, hp]⟩
  | ok P =>
      exact ⟨Err.typeError "object of type 'Response' has no len()",
        by simp [processGame, hp, bs4_on_response]⟩

/-- C10. The worker loop breaks on any falsy queue item: an empty-string
game URL terminates the worker exactly like the `None` sentinel, with no
fetch or write performed and nothing processed. -/
theorem falsy_item_terminates_worker (fetch : String → Except Err String)
    (normalize : String → String) (q : List (Option String)) :
    runWorker fetch normalize (some "" :: q) = .ok ([], []) ∧
    runWorker fetch normalize (some "" :: q) =
      runWorker fetch normalize (none :: q) := by
  constructor <;> simp [runWorker, pyFalsy]

/-- `countFinished` distributes over list append. -/
theorem countFinished_append (l₁ l₂ : List WkSt) :
    countFinished (l₁ ++ l₂) = countFinished l₁ + countFinished l₂ := by
  induction l₁ with
  | nil => simp [countFinished]
  | cons w l ih => simp [countFinished, ih]; omega

/-- `countCrashed` distributes over list append. -/
theorem countCrashed_append (l₁ l₂ : List WkSt) :
    countCrashed (l₁ ++ l₂) = countCrashed l₁ + countCrashed l₂ := by
  induction l₁ with
  | nil => simp [countCrashed]
  | cons w l ih => simp [countCrashed, ih]; omega

/-- `allProcessed` distributes over list append. -/
theorem allProcessed_append (l₁ l₂ : List WkSt) :
    allProcessed (l₁ ++ l₂) = allProcessed l₁ ++ allProcessed l₂ := by
  induction l₁ with
  | nil => simp [allProcessed]
  | cons w l ih => simp [allProcessed, ih]

/-- The three status counts partition the pool. -/
theorem counts_partition (ws : List WkSt) :
    countFinished ws + countCrashed ws + countRunning ws = ws.length := by
  induction ws with
  | nil => simp [countFinished, countCrashed, countRunning]
  | cons w l ih =>
      cases hw : w.status <;>
        simp [countFinished, countCrashed, countRunning, hw] <;> omega

/-- If the clean-termination count equals the pool size, every worker
finished. -/
theorem all_finished_of_countFinished_eq (ws : List WkSt)
    (h : countFinished ws = ws.length) :
    ∀ w ∈ ws, w.status = WStatus.finished := by
  induction ws with
  | nil => simp
  | cons w l ih =>
      have hpart := counts_partition l
      cases hw : w.status with
      | finished =>
          intro w' hw'
          rcases List.mem_cons.mp hw' with rfl | hmem
          · exact hw
          · refine ih ?_ w' hmem
            simp [countFinished, hw] at h
            omega
      | running =>
          exfalso
          simp [countFinished, hw] at h
          omega
      | crashed =>
          exfalso
          simp [countFinished, hw] at h
          omega

/-- If every worker finished, the clean-termination count is the pool
size. -/
theorem countFinished_eq_length_of_all (ws : List WkSt)
    (h : ∀ w ∈ ws, w.status = WStatus.finished) :
    countFinished ws = ws.length := by
  induction ws with
  | nil => simp [countFinished]
  | cons w l ih =>
      have hw := h w (List.mem_cons_self w l)
      have hl := ih fun w' hw' => h w' (List.mem_cons_of_mem w hw')
      simp [countFinished, hw, hl]
      omega

/-- A pool with no crashed worker has crash count zero. -/
theorem countCrashed_eq_zero (ws : List WkSt)
    (h : ∀ w ∈ ws, w.status ≠ WStatus.crashed) : countCrashed ws = 0 := by
  induction ws with
  | nil => simp [countCrashed]
  | cons w l ih =>
      have hw := h w (List.mem_cons_self w l)
      have hl := ih fun w' hw' => h w' (List.mem_cons_of_mem w hw')
      simp [countCrashed, hw, hl]

/-- A pool with no running worker has running count zero. -/
theorem countRunning_eq_zero (ws : List WkSt)
    (h : ∀ w ∈ ws, w.status ≠ WStatus.running) : countRunning ws = 0 := by
  induction ws with
  | nil => simp [countRunning]
  | cons w l ih =>
      have hw := h w (List.mem_cons_self w l)
      have hl := ih fun w' hw' => h w' (List.mem_cons_of_mem w hw')
      simp [countRunning, hw, hl]

/-- Moving an element freshly appended to the middle segment of a
concatenation out to the far right is a permutation. -/
theorem perm_task_complete (A B C D Y : List String) (t : String)
    (h : List.Perm ((A ++ (B ++ C)) ++ D) Y) :
    List.Perm ((A ++ ((B ++ [t]) ++ C)) ++ D) (Y ++ [t]) := by
  have e1 : (A ++ ((B ++ [t]) ++ C)) ++ D = A ++ (B ++ ([t] ++ (C ++ D))) := by
    simp [List.append_assoc]
  rw [e1]
  have hmv : List.Perm (A ++ (B ++ ([t] ++ (C ++ D))))
      ((A ++ (B ++ (C ++ D))) ++ [t]) := by
    have h2 := List.Perm.append_left A (List.Perm.append_left B
      (List.perm_append_comm : List.Perm ([t] ++ (C ++ D)) ((C ++ D) ++ [t])))
    have e3 : A ++ (B ++ ((C ++ D) ++ [t])) = (A ++ (B ++ (C ++ D))) ++ [t] := by
      simp [List.append_assoc]
    rw [← e3]
    exact h2
  refine hmv.trans ?_
  have e2 : (A ++ (B ++ C)) ++ D = A ++ (B ++ (C ++ D)) := by
    simp [List.append_assoc]
  rw [← e2]
  exact h.append_right [t]

/-- The initial pool state satisfies the invariant (nothing popped yet). -/
theorem winv_init (tasks : List String) (cpu : Nat) :
    WInv tasks cpu (get_games_start cpu tasks) := by
  have hcf : ∀ n, countFinished (List.replicate n ⟨WStatus.running, []⟩) = 0 := by
    intro n
    induction n with
    | zero => rfl
    | succ k ih => simp [List.replicate_succ, countFinished, ih]
  have hcc : ∀ n, countCrashed (List.replicate n ⟨WStatus.running, []⟩) = 0 := by
    intro n
    induction n with
    | zero => rfl
    | succ k ih => simp [List.replicate_succ, countCrashed, ih]
  have hap : ∀ n, allProcessed (List.replicate n ⟨WStatus.running, []⟩) = [] := by
    intro n
    induction n with
    | zero => rfl
    | succ k ih => simp [List.replicate_succ, allProcessed, ih]
  exact ⟨by simp [get_games_start], 0, by omega, by simp [get_games_start],
    by simp [get_games_start, hcf], [], by simp [get_games_start, hcc],
    by simp [get_games_start, hap]⟩

/-- One interleaved step of the pool preserves the invariant, provided
every enqueued task URL is a nonempty string. -/
theorem winv_step (crashes : String → Bool) (tasks : List String) (W : Nat)
    (htasks : ∀ t ∈ tasks, t ≠ "") (s t : WSys)
    (hinv : WInv tasks W s) (hstep : QStep crashes s t) : WInv tasks W t := by
  obtain ⟨hlen, p, hple, hq, hcf, dropped, hdl, hperm⟩ := hinv
  obtain ⟨ws₁, ws₂, w, x, rest, hq', hw, hrun, ht⟩ := hstep
  have hQlen : (tasks.map some ++ List.replicate W none).length =
      tasks.length + W := by simp
  have hQp : (tasks.map some ++ List.replicate W none).drop p = x :: rest := by
    rw [← hq, hq']
  have h1 : (tasks.map some ++ List.replicate W none).length - p =
      rest.length + 1 := by
    rw [← List.length_drop, hQp]
    simp
  have hplt : p < (tasks.map some ++ List.replicate W none).length := by omega
  rw [List.drop_eq_getElem_cons hplt] at hQp
  injection hQp with hx hrest
  have hlen' : t.workers.length = W := by
    rw [ht]
    rw [hw] at hlen
    simp at hlen ⊢
    omega
  by_cases hc : p < tasks.length
  · -- a task is popped
    have hmaplen : p < (tasks.map some).length := by simpa using hc
    have hxv : x = some tasks[p] := by
      rw [← hx, List.getElem_append_left hmaplen, List.getElem_map]
    have htp : tasks[p] ≠ "" := htasks _ (List.getElem_mem hc)
    have htake : tasks.take (p + 1) = tasks.take p ++ [tasks[p]] := by
      rw [List.take_succ]
      simp [List.getElem?_eq_getElem hc]
    by_cases hcr : crashes (tasks[p]) = true
    · -- the loop body raises: the worker dies, the task is dropped
      have hsw : stepWorker crashes w x = { w with status := WStatus.crashed } := by
        rw [hxv]
        simp [stepWorker, pyFalsy, htp, hcr]
      refine ⟨hlen', p + 1, by omega, by rw [ht]; exact hrest.symm, ?_,
        dropped ++ [tasks[p]], ?_, ?_⟩
      · rw [ht]
        show countFinished (ws₁ ++ stepWorker crashes w x :: ws₂) =
          p + 1 - tasks.length
        rw [hw] at hcf
        rw [countFinished_append] at hcf ⊢
        rw [hsw]
        simp [countFinished, hrun] at hcf ⊢
        omega
      · rw [ht]
        show (dropped ++ [tasks[p]]).length =
          countCrashed (ws₁ ++ stepWorker crashes w x :: ws₂)
        rw [hw] at hdl
        rw [countCrashed_append] at hdl ⊢
        rw [hsw]
        simp [countCrashed, hrun] at hdl ⊢
        omega
      · rw [ht]
        show List.Perm
          (allProcessed (ws₁ ++ stepWorker crashes w x :: ws₂) ++
            (dropped ++ [tasks[p]]))
          (tasks.take (p + 1))
        rw [htake, hsw, allProcessed_append]
        simp only [allProcessed]
        rw [hw, allProcessed_append] at hperm
        simp only [allProcessed] at hperm
        have e : (allProcessed ws₁ ++ (w.processed ++ allProcessed ws₂)) ++
            (dropped ++ [tasks[p]]) =
            ((allProcessed ws₁ ++ (w.processed ++ allProcessed ws₂)) ++
              dropped) ++ [tasks[p]] := by
          simp [List.append_assoc]
        rw [e]
        exact hperm.append_right [tasks[p]]
    · -- the loop body completes the game
      have hcr' : crashes (tasks[p]) = false := by
        cases hcb : crashes (tasks[p])
        · rfl
        · exact absurd hcb hcr
      have hsw : stepWorker crashes w x =
          { w with processed := w.processed ++ [tasks[p]] } := by
        rw [hxv]
        simp [stepWorker, pyFalsy, htp, hcr']
      refine ⟨hlen', p + 1, by omega, by rw [ht]; exact hrest.symm, ?_,
        dropped, ?_, ?_⟩
      · rw [ht]
        show countFinished (ws₁ ++ stepWorker crashes w x :: ws₂) =
          p + 1 - tasks.length
        rw [hw] at hcf
        rw [countFinished_append] at hcf ⊢
        rw [hsw]
        simp [countFinished, hrun] at hcf ⊢
        omega
      · rw [ht]
        show dropped.length =
          countCrashed (ws₁ ++ stepWorker crashes w x :: ws₂)
        rw [hw] at hdl
        rw [countCrashed_append] at hdl ⊢
        rw [hsw]
        simp [countCrashed, hrun] at hdl ⊢
        omega
      · rw [ht]
        show List.Perm
          (allProcessed (ws₁ ++ stepWorker crashes w x :: ws₂) ++ dropped)
          (tasks.take (p + 1))
        rw [htake, hsw, allProcessed_append]
        simp only [allProcessed]
        rw [hw, allProcessed_append] at hperm
        simp only [allProcessed] at hperm
        exact perm_task_complete _ _ _ _ _ _ hperm
  · -- a sentinel is popped
    have hge : tasks.length ≤ p := Nat.le_of_not_lt hc
    have hmaplen : (tasks.map some).length ≤ p := by simpa using hge
    have hxv : x = none := by
      rw [← hx, List.getElem_append_right hmaplen, List.getElem_replicate]
    have hsw : stepWorker crashes w x = { w with status := WStatus.finished } := by
      rw [hxv]
      simp [stepWorker, pyFalsy]
    refine ⟨hlen', p + 1, by omega, by rw [ht]; exact hrest.symm, ?_,
      dropped, ?_, ?_⟩
    · rw [ht]
      show countFinished (ws₁ ++ stepWorker crashes w x :: ws₂) =
        p + 1 - tasks.length
      rw [hw] at hcf
      rw [countFinished_append] at hcf ⊢
      rw [hsw]
      simp [countFinished, hrun] at hcf ⊢
      omega
    · rw [ht]
      show dropped.length =
        countCrashed (ws₁ ++ stepWorker crashes w x :: ws₂)
      rw [hw] at hdl
      rw [countCrashed_append] at hdl ⊢
      rw [hsw]
      simp [countCrashed, hrun] at hdl ⊢
      omega
    · rw [ht]
      show List.Perm
        (allProcessed (ws₁ ++ stepWorker crashes w x :: ws₂) ++ dropped)
        (tasks.take (p + 1))
      rw [hsw, allProcessed_append]
      simp only [allProcessed]
      rw [hw, allProcessed_append] at hperm
      simp only [allProcessed] at hperm
      rw [List.take_of_length_le hge] at hperm
      rw [List.take_of_length_le (by omega)]
      exact hperm

/-- The invariant holds in every state reachable from the pool start. -/
theorem winv_reach (crashes : String → Bool) (tasks : List String)
    (cpu : Nat) (htasks : ∀ t ∈ tasks, t ≠ "") (s : WSys)
    (h : QReach crashes (get_games_start cpu tasks) s) : WInv tasks cpu s := by
  induction h with
  | refl => exact winv_init tasks cpu
  | tail _ hstep ih => exact winv_step crashes tasks cpu htasks _ _ ih hstep

/-- A blocked pool has an empty queue or no worker still running. -/
theorem stuck_queue_or_done (crashes : String → Bool) (s : WSys)
    (hstuck : QStuck crashes s) :
    s.queue = [] ∨ ∀ w ∈ s.workers, w.status ≠ WStatus.running := by
  by_cases hq : s.queue = []
  · exact Or.inl hq
  · refine Or.inr fun w hmem => ?_
    intro hwr
    obtain ⟨ws₁, ws₂, hw⟩ := List.append_of_mem hmem
    cases hqe : s.queue with
    | nil => exact hq hqe
    | cons x rest =>
        exact hstuck ⟨⟨rest, ws₁ ++ stepWorker crashes w x :: ws₂⟩,
          QStep.mk ws₁ ws₂ w x rest hqe hw hwr rfl⟩

/-- C2 amended. `_get_games` pushes exactly one `None` sentinel per worker
(`cpu_count()` of them, behind the already queued tasks) and spawns that
many workers; the loop body has no exception handler, so for any body
outcome oracle, any pool of `W ≥ 1` workers and any finite list of
nonempty task URLs, every maximal interleaved execution ends with each
worker terminated either by popping a sentinel or by an uncaught error on
a popped task (which consumes no sentinel); each popped task is completed
by at most one worker — the completed URLs plus one dropped URL per crash
are a permutation of the popped prefix, so no task is processed twice —
and when no worker crashed, the originally claimed conclusion holds: all
workers terminated via sentinels, the queue fully drained, and the
completed URLs a permutation of the enqueued tasks. -/
theorem sentinel_shutdown (crashes : String → Bool) (tasks : List String)
    (cpu : Nat) (htasks : ∀ t ∈ tasks, t ≠ "") (hcpu : 1 ≤ cpu) :
    (get_games_start cpu tasks).queue =
      tasks.map some ++ List.replicate cpu none ∧
    (get_games_start cpu tasks).workers.length = cpu ∧
    ∀ s : WSys, QReach crashes (get_games_start cpu tasks) s →
      QStuck crashes s →
      (∀ w ∈ s.workers,
        w.status = WStatus.finished ∨ w.status = WStatus.crashed) ∧
      countFinished s.workers + countCrashed s.workers = cpu ∧
      (∃ p dropped, p ≤ tasks.length + cpu ∧
        dropped.length = countCrashed s.workers ∧
        List.Perm (allProcessed s.workers ++ dropped) (tasks.take p)) ∧
      (tasks.Nodup → (allProcessed s.workers).Nodup) ∧
      ((∀ w ∈ s.workers, w.status ≠ WStatus.crashed) →
        (∀ w ∈ s.workers, w.status = WStatus.finished) ∧
        s.queue = [] ∧
        List.Perm (allProcessed s.workers) tasks) := by
  refine ⟨rfl, by simp [get_games_start], ?_⟩
  intro s hreach hstuck
  obtain ⟨hlen, p, hple, hq, hcf, dropped, hdl, hperm⟩ :=
    winv_reach crashes tasks cpu htasks s hreach
  have hQlen : (tasks.map some ++ List.replicate cpu none).length =
      tasks.length + cpu := by simp
  have hnorun : ∀ w ∈ s.workers, w.status ≠ WStatus.running := by
    rcases stuck_queue_or_done crashes s hstuck with hqnil | hall
    · have hdz : (tasks.map some ++ List.replicate cpu none).length - p = 0 := by
        rw [← List.length_drop, ← hq, hqnil]
        rfl
      have hpfull : p = tasks.length + cpu := by omega
      have hcf' : countFinished s.workers = s.workers.length := by
        rw [hcf, hpfull, hlen]
        omega
      intro w hmem
      have hfin := all_finished_of_countFinished_eq s.workers hcf' w hmem
      simp [hfin]
    · exact hall
  have hterm : ∀ w ∈ s.workers,
      w.status = WStatus.finished ∨ w.status = WStatus.crashed := by
    intro w hmem
    cases hws : w.status with
    | running => exact absurd hws (hnorun w hmem)
    | finished => exact Or.inl rfl
    | crashed => exact Or.inr rfl
  have hcnt : countFinished s.workers + countCrashed s.workers = cpu := by
    have hpart := counts_partition s.workers
    have hz := countRunning_eq_zero s.workers hnorun
    omega
  have hnd : tasks.Nodup → (allProcessed s.workers).Nodup := by
    intro hnodup
    have htk : (tasks.take p).Nodup :=
      List.Nodup.sublist (List.take_sublist p tasks) hnodup
    have happ : (allProcessed s.workers ++ dropped).Nodup :=
      hperm.nodup_iff.mpr htk
    exact happ.of_append_left
  have hrec : (∀ w ∈ s.workers, w.status ≠ WStatus.crashed) →
      (∀ w ∈ s.workers, w.status = WStatus.finished) ∧ s.queue = [] ∧
      List.Perm (allProcessed s.workers) tasks := by
    intro hnocrash
    have hfin : ∀ w ∈ s.workers, w.status = WStatus.finished := by
      intro w hmem
      rcases hterm w hmem with h | h
      · exact h
      · exact absurd h (hnocrash w hmem)
    have hcfl := countFinished_eq_length_of_all s.workers hfin
    have hpfull : p = tasks.length + cpu := by omega
    have hqnil : s.queue = [] := by
      rw [hq, hpfull, ← hQlen, List.drop_length]
    have hcc0 : countCrashed s.workers = 0 :=
      countCrashed_eq_zero s.workers hnocrash
    have hde : dropped = [] :=
      List.eq_nil_of_length_eq_zero (hdl.trans hcc0)
    have hpermall : List.Perm (allProcessed s.workers) tasks := by
      have hp2 := hperm
      rw [hde, List.append_nil] at hp2
      rw [List.take_of_length_le (by omega)] at hp2
      exact hp2
    exact ⟨hfin, hqnil, hpermall⟩
  exact ⟨hterm, hcnt, ⟨p, dropped, hple, hdl, hperm⟩, hnd, hrec⟩

/-- C2 counterexample: with the body outcome the program actually has —
the loop body raises on every task, see `no_persistence_effects` — one
worker and one enqueued task reach a blocked state in a single step: the
worker is dead without having popped a sentinel, the sentinel is still in
the queue, and nothing was processed, refuting the claimed all-workers-
terminate-via-sentinel, queue-drained conclusion. -/
theorem sentinel_shutdown_counterexample :
    QReach (fun _ => true) (get_games_start 1 ["g1"])
      (⟨[none], [⟨WStatus.crashed, []⟩]⟩ : WSys) ∧
    QStuck (fun _ => true) (⟨[none], [⟨WStatus.crashed, []⟩]⟩ : WSys) ∧
    ¬ (∀ w ∈ (⟨[none], [⟨WStatus.crashed, []⟩]⟩ : WSys).workers,
        w.status = WStatus.finished) ∧
    (⟨[none], [⟨WStatus.crashed, []⟩]⟩ : WSys).queue ≠ [] ∧
    ¬ List.Perm
      (allProcessed (⟨[none], [⟨WStatus.crashed, []⟩]⟩ : WSys).workers)
      ["g1"] := by
  refine ⟨?_, ?_, ?_, ?_, ?_⟩
  · exact Relation.ReflTransGen.tail Relation.ReflTransGen.refl
      (QStep.mk [] [] ⟨WStatus.running, []⟩ (some "g1") [none] rfl rfl rfl
        (by decide))
  · rintro ⟨t, hstep⟩
    obtain ⟨ws₁, ws₂, w, x, rest, hq, hw, hrun, ht⟩ := hstep
    cases ws₁ with
    | nil =>
        injection hw with hw1 hw2
        rw [← hw1] at hrun
        exact absurd hrun (by decide)
    | cons a l =>
        have hlw := congrArg List.length hw
        simp at hlw
  · intro hall
    have hst := hall ⟨WStatus.crashed, []⟩ (by simp)
    exact absurd hst (by decide)
  · decide
  · intro hp
    have hlp := hp.length_eq
    simp [allProcessed] at hlp

/-- Witness for C2's amended theorem: a crash-free body oracle, one worker,
one task; the two-step execution completes the task, then pops the
sentinel and blocks. -/
theorem sentinel_shutdown_witness :
    (∀ w ∈ ([⟨WStatus.finished, ["g1"]⟩] : List WkSt),
        w.status = WStatus.finished ∨ w.status = WStatus.crashed) ∧
    countFinished [⟨WStatus.finished, ["g1"]⟩] +
        countCrashed [⟨WStatus.finished, ["g1"]⟩] = 1 ∧
    (∃ p dropped, p ≤ (["g1"] : List String).length + 1 ∧
        dropped.length = countCrashed [⟨WStatus.finished, ["g1"]⟩] ∧
        List.Perm (allProcessed [⟨WStatus.finished, ["g1"]⟩] ++ dropped)
          ((["g1"] : List String).take p)) ∧
    ((["g1"] : List String).Nodup →
        (allProcessed ([⟨WStatus.finished, ["g1"]⟩] : List WkSt)).Nodup) ∧
    ((∀ w ∈ ([⟨WStatus.finished, ["g1"]⟩] : List WkSt),
        w.status ≠ WStatus.crashed) →
      (∀ w ∈ ([⟨WStatus.finished, ["g1"]⟩] : List WkSt),
        w.status = WStatus.finished) ∧
      (⟨[], [⟨WStatus.finished, ["g1"]⟩]⟩ : WSys).queue = [] ∧
      List.Perm (allProcessed [⟨WStatus.finished, ["g1"]⟩]) ["g1"]) := by
  have hstep1 : QStep (fun _ => false) (get_games_start 1 ["g1"])
      (⟨[none], [⟨WStatus.running, ["g1"]⟩]⟩ : WSys) :=
    QStep.mk [] [] ⟨WStatus.running, []⟩ (some "g1") [none] rfl rfl rfl
      (by decide)
  have hstep2 : QStep (fun _ => false)
      (⟨[none], [⟨WStatus.running, ["g1"]⟩]⟩ : WSys)
      (⟨[], [⟨WStatus.finished, ["g1"]⟩]⟩ : WSys) :=
    QStep.mk [] [] ⟨WStatus.running, ["g1"]⟩ none [] rfl rfl rfl (by decide)
  have hreach : QReach (fun _ => false) (get_games_start 1 ["g1"])
      (⟨[], [⟨WStatus.finished, ["g1"]⟩]⟩ : WSys) :=
    Relation.ReflTransGen.tail
      (Relation.ReflTransGen.tail Relation.ReflTransGen.refl hstep1) hstep2
  have hstuck : QStuck (fun _ => false)
      (⟨[], [⟨WStatus.finished, ["g1"]⟩]⟩ : WSys) := by
    rintro ⟨t, hstep⟩
    obtain ⟨ws₁, ws₂, w, x, rest, hq, hw, hrun, ht⟩ := hstep
    cases hq
  exact (sentinel_shutdown (fun _ => false) ["g1"] 1 (by decide) (by decide)).2.2
    (⟨[], [⟨WStatus.finished, ["g1"]⟩]⟩ : WSys) hreach hstuck

end GetGames
